import Mathlib

/-!
Shallow embedding of the change-detection and de-duplication core of the
rip-stock-notifier repository (rip_marketplace_monitor.py and
rip_stock_notifier.py).  The HTTP fetches, the regex scans over raw HTML
and the Discord/email transports are external collaborators; the
embedding consumes their outputs (extracted captures, fetch results,
parsed JSON documents) and models every decision the Python code makes
from that point on.  Machine floats are modelled as exact rationals.
-/

namespace RipNotifier

/-- Values a document parsed by the json library can take. -/
inductive Json where
  | null
  | bool (b : Bool)
  | num (n : Int)
  | str (s : String)
  | arr (elems : List Json)
  | obj (fields : List (String × Json))

/-- Hashable Python scalar values: the only values a Python set built by
load_seen_listings can contain (lists and dicts are unhashable). -/
inductive PyHashable where
  | null
  | bool (b : Bool)
  | num (n : Int)
  | str (s : String)
deriving DecidableEq

/-- Reading a JSON value as a hashable Python scalar; none for the
unhashable container values. -/
def Json.toHashable? : Json → Option PyHashable
  | .null => some .null
  | .bool b => some (.bool b)
  | .num n => some (.num n)
  | .str s => some (.str s)
  | .arr _ => none
  | .obj _ => none

/-- Embedding of a hashable Python scalar back into JSON, as json.dump
serialises it. -/
def PyHashable.toJson : PyHashable → Json
  | .null => Json.null
  | .bool b => Json.bool b
  | .num n => Json.num n
  | .str s => Json.str s

/-- Injective sort key giving PyHashable a computable linear order, used
only to pick the (behaviourally irrelevant) order in which list(set)
emits the set's elements when the seen set is serialised. -/
def PyHashable.sortKey : PyHashable → ℕ ×ₗ (ℤ ×ₗ String)
  | .null => toLex (0, toLex (0, ""))
  | .bool b => toLex (1, toLex (if b then 1 else 0, ""))
  | .num n => toLex (2, toLex (n, ""))
  | .str s => toLex (3, toLex (0, s))

theorem PyHashable.sortKey_injective : Function.Injective PyHashable.sortKey := by
  intro a b h
  cases a <;> cases b <;> simp [PyHashable.sortKey, toLex_inj] at h <;> try simp_all
  all_goals rename_i x y
  all_goals cases x <;> cases y <;> simp_all

instance : LinearOrder PyHashable :=
  LinearOrder.lift' PyHashable.sortKey PyHashable.sortKey_injective

/-- State of the seen-listings file on disk as observed through the json
library: the file may be absent (os.path.exists is false), present but
rejected by the JSON parser (json.load raises JSONDecodeError; an
unreadable file raising IOError is subsumed here since both are caught
together), or present and parsed into a document. -/
inductive StoredFile where
  | absent
  | unparseable (raw : String)
  | parsed (doc : Json)

/-- Field lookup in a parsed JSON object, as dict access after json.load:
duplicate keys in the source text leave the last value in the dict. -/
def jsonGet (fields : List (String × Json)) (k : String) : Option Json :=
  (fields.reverse.find? (fun p => p.1 == k)).map (fun p => p.2)

/-- Semantics of the Python set(...) constructor applied to a parsed JSON
value: iterating a list yields its elements and raises TypeError when one
is unhashable, iterating a string yields its one-character substrings,
iterating a dict yields its keys, and every other value is not iterable
(TypeError). -/
def pySet : Json → Except String (Finset PyHashable)
  | .arr es =>
      if es.all (fun e => e.toHashable?.isSome) then
        .ok (es.filterMap Json.toHashable?).toFinset
      else .error "TypeError: unhashable type"
  | .str s => .ok ((s.data.map (fun c => PyHashable.str (String.mk [c]))).toFinset)
  | .obj fields => .ok ((fields.map (fun p => PyHashable.str p.1)).toFinset)
  | _ => .error "TypeError: object is not iterable"

/-- load_seen_listings (rip_marketplace_monitor.py, lines 138-152):
returns the persisted seen set.  A missing file, or a JSONDecodeError or
IOError while reading, is caught and yields the empty set; but a file
that parses to a non-object document makes data.get raise an uncaught
AttributeError, and a seen_listings value that is not iterable (or an
array holding an unhashable element) makes set(...) raise an uncaught
TypeError — only JSONDecodeError and IOError are in the except clause. -/
def load_seen_listings : StoredFile → Except String (Finset PyHashable)
  | .absent => .ok ∅
  | .unparseable _ => .ok ∅
  | .parsed (.obj fields) => pySet ((jsonGet fields "seen_listings").getD (.arr []))
  | .parsed _ => .error "AttributeError: object has no attribute get"

/-- save_seen_listings (rip_marketplace_monitor.py, lines 155-169):
overwrites the file with a JSON object holding the listed seen set and a
last-updated timestamp.  The json.dump call over the opened file is the
I/O collaborator; this models the successful write (an IOError is caught,
logged, and leaves the previous content, a path no claim touches). -/
def save_seen_listings (seen_listings : Finset PyHashable) (ts : String) : StoredFile :=
  .parsed (.obj [("seen_listings",
                  .arr ((seen_listings.sort (· ≤ ·)).map PyHashable.toJson)),
                 ("last_updated", .str ts)])

/-- A marketplace listing record as handed to the core: a Python dict
whose fields may individually be missing — listing.get supplies the
default at each use site.  Prices are exact rationals. -/
structure Listing where
  card_id : Option String := none
  card_name : Option String := none
  set_name : Option String := none
  listed_price : Option ℚ := none
  market_price : Option ℚ := none
  quantity : Option Nat := none
  rarity : Option String := none
  timestamp : Option String := none
deriving DecidableEq

/-- calculate_deal_percentage (rip_marketplace_monitor.py, lines
172-185). -/
def calculate_deal_percentage (listed_price market_price : ℚ) : ℚ :=
  if market_price ≤ 0 then 0
  else ((listed_price - market_price) / market_price) * 100

/-- Module-level configuration of rip_marketplace_monitor.py read by
send_discord_notification (lines 38-51). -/
structure MonitorConfig where
  webhook_url : String
  min_listing_price : ℚ
  max_listing_price : ℚ
  deal_threshold_percent : ℚ
deriving DecidableEq

/-- Decision core of send_discord_notification (rip_marketplace_monitor.py,
lines 211-288): whether a Discord post is attempted for the listing.  An
empty webhook URL returns early; then the deal-quality, minimum-price and
maximum-price filters each suppress the post when their threshold is
positive and the listing fails them.  Payload formatting and the HTTP
post itself are the transport collaborator. -/
def send_discord_notification (cfg : MonitorConfig) (listing : Listing) : Bool :=
  if cfg.webhook_url = "" then false
  else
    let listed_price := listing.listed_price.getD 0
    let market_price := listing.market_price.getD 0
    let deal_percent := calculate_deal_percentage listed_price market_price
    if 0 < cfg.deal_threshold_percent ∧ -cfg.deal_threshold_percent < deal_percent then
      false
    else if 0 < cfg.min_listing_price ∧ listed_price < cfg.min_listing_price then
      false
    else if 0 < cfg.max_listing_price ∧ cfg.max_listing_price < listed_price then
      false
    else true

/-- Identity key built at rip_marketplace_monitor.py line 306: card_id and
timestamp joined by an underscore, with the dict.get defaults — a missing
card_id becomes "unknown" and a missing timestamp becomes the rendering of
the current wall-clock time, passed here as now. -/
def listing_identity_key (now : String) (listing : Listing) : String :=
  (listing.card_id.getD "unknown") ++ "_" ++ (listing.timestamp.getD now)

/-- process_new_listings (rip_marketplace_monitor.py, lines 291-318):
walks the batch in order, invokes the notification dispatcher for every
listing whose identity key is absent from the seen set supplied by the
caller (the membership test is against that original set throughout), and
returns the copied seen set extended with those keys, paired with the
listings for which the dispatcher was invoked, in batch order.  The loop
body is the step function pnl_step below; keyOf is the listing_id of
line 306 as a set element. -/
def keyOf (now : String) (listing : Listing) : PyHashable :=
  PyHashable.str (listing_identity_key now listing)

def pnl_step (now : String) (seen_listings : Finset PyHashable)
    (acc : Finset PyHashable × List Listing) (listing : Listing) :
    Finset PyHashable × List Listing :=
  if keyOf now listing ∈ seen_listings then acc
  else (insert (keyOf now listing) acc.1, acc.2 ++ [listing])

def process_new_listings (now : String) (listings : List Listing)
    (seen_listings : Finset PyHashable) : Finset PyHashable × List Listing :=
  listings.foldl (pnl_step now seen_listings) (seen_listings, [])

/-- Decimal digit value of a character, none for a non-digit. -/
def digitVal (c : Char) : Option Nat :=
  if '0' ≤ c ∧ c ≤ '9' then some (c.toNat - '0'.toNat) else none

/-- Model of float(price_str) on a regex capture known to be either the
digit string of a price or the fallback "0": parses a nonempty digit
string, and is none where float would raise ValueError, which the code
turns into a 0.0 price. -/
def parseDigits (s : String) : Option Nat :=
  if s.data.isEmpty then none
  else
    s.data.foldl
      (fun acc c =>
        match acc, digitVal c with
        | some n, some d => some (n * 10 + d)
        | _, _ => none)
      (some 0)

/-- Parsing-and-normalising core of fetch_marketplace_data
(rip_marketplace_monitor.py, lines 93-121): from the regex captures (card
ids, price digit strings, names) it builds at most five listing records,
substituting the documented defaults whenever a capture list is too
short: price string "0" (hence price 0.0), name "Card <id>", and a fixed
quantity of 1.  The market price is mocked as 1.2 times the listed price.
The HTTP fetch and the regex scans are the extraction collaborator; a
fetch failure is the none sentinel at the call site. -/
def fetch_marketplace_data (card_ids prices names : List String) (now : String) :
    List Listing :=
  (card_ids.take 5).enum.map (fun p =>
    let card_id := p.2
    let price_str := (prices.get? p.1).getD "0"
    let name := (names.get? p.1).getD ("Card " ++ card_id)
    let listed_price : ℚ :=
      match parseDigits price_str with
      | some n => (n : ℚ) / 1000000
      | none => 0
    { card_id := some card_id
      card_name := some name
      set_name := some "Unknown Set"
      listed_price := some listed_price
      market_price := some (listed_price * (12 / 10 : ℚ))
      quantity := some 1
      rarity := some "Unknown"
      timestamp := some now })

/-- check_marketplace (rip_marketplace_monitor.py, lines 321-345): one
full marketplace cycle over the on-disk state.  fetch_result is the
collaborator outcome — none models the fetch-failure sentinel, some a
successful fetch.  The cycle loads the seen set (propagating any uncaught
exception from load_seen_listings), returns without saving when the fetch
failed or produced no listings, and otherwise processes the batch and
saves the updated seen set.  The result is the on-disk state after the
cycle together with the listings handed to the dispatcher. -/
def check_marketplace (fetch_result : Option (List Listing)) (now ts : String)
    (disk : StoredFile) : Except String (StoredFile × List Listing) :=
  match load_seen_listings disk with
  | .error e => .error e
  | .ok seen_listings =>
    match fetch_result with
    | none => .ok (disk, [])
    | some listings =>
      if listings.isEmpty then .ok (disk, [])
      else
        let r := process_new_listings now listings seen_listings
        .ok (save_seen_listings r.1 ts, r.2)

/-- Whitespace trimming from both ends, modelling str.strip(). -/
def pyStrip (s : List Char) : List Char :=
  ((s.dropWhile Char.isWhitespace).reverse.dropWhile Char.isWhitespace).reverse

/-- Deletion of the non-overlapping occurrences of pat, scanning left to
right, modelling str.replace(pat, ""); the fuel argument bounds the
recursion by the length of the scanned list. -/
def removePatAux (pat : List Char) : Nat → List Char → List Char
  | 0, s => s
  | _ + 1, [] => []
  | fuel + 1, c :: rest =>
      if pat.isPrefixOf (c :: rest) ∧ pat ≠ [] then
        removePatAux pat fuel ((c :: rest).drop pat.length)
      else c :: removePatAux pat fuel rest

/-- str.replace(pat, "") over char lists. -/
def removePat (pat : List Char) (s : List Char) : List Char :=
  removePatAux pat s.length s

/-- Set-name normalisation at rip_stock_notifier.py line 96:
pack_name.replace(" Booster Pack", "").strip(). -/
def set_name_of (pack_name : String) : String :=
  String.mk (pyStrip (removePat " Booster Pack".data pack_name.data))

/-- Insertion-ordered dict update modelling
pack_counts[k] = pack_counts.get(k, 0) + 1: an existing key is bumped in
place, a fresh key is appended at the end. -/
def bumpCount : List (String × Nat) → String → List (String × Nat)
  | [], k => [(k, 1)]
  | (k', v) :: rest, k =>
      if k' = k then (k', v + 1) :: rest else (k', v) :: bumpCount rest k

/-- Counting core of fetch_available_packs_from_store
(rip_stock_notifier.py, lines 73-107): tallies the regex inventory
matches — (token id, pack name) pairs — into per-set pack counts,
preserving dict insertion order.  The HTTP fetch and the regex scan are
the extraction collaborator; both of its failure paths return the empty
dict sentinel, modelled as the empty list at the call site. -/
def fetch_available_packs_from_store (inventory_matches : List (String × String)) :
    List (String × Nat) :=
  inventory_matches.foldl
    (fun pack_counts p => bumpCount pack_counts (set_name_of p.2)) []

/-- dict.get(set_name, 0) on a stock ledger. -/
def lookupCount (ledger : List (String × Nat)) (set_name : String) : Nat :=
  ((ledger.find? (fun p => p.1 == set_name)).map (fun p => p.2)).getD 0

/-- Notification produced by the stock path (the rendered message and the
transports are collaborators; the event records which branch fired and
with which data). -/
inductive StockEvent where
  | firstSeen (set_name : String) (count : Nat)
  | restock (set_name : String) (count previous_count : Nat)
deriving DecidableEq

/-- Set name an event is about. -/
def StockEvent.setName : StockEvent → String
  | .firstSeen s _ => s
  | .restock s _ _ => s

/-- Per-entry classification inside the check_and_notify loop
(rip_stock_notifier.py, lines 169-189): the first branch fires whenever
the previous count is zero, the restock branch when the current count
exceeds the previous count by more than five, and otherwise no
notification is produced. -/
def stock_classification (previous_stock : List (String × Nat))
    (p : String × Nat) : Option StockEvent :=
  let previous_count := lookupCount previous_stock p.1
  if previous_count = 0 then some (.firstSeen p.1 p.2)
  else if previous_count + 5 < p.2 then some (.restock p.1 p.2 previous_count)
  else none

/-- check_and_notify (rip_stock_notifier.py, lines 154-197) as a function
of the fetched tally and the previous in-memory ledger: on the empty-dict
failure sentinel it returns before touching the ledger; otherwise it
classifies every tally entry in iteration order and replaces the ledger
wholesale with the current tally.  The result is the new ledger paired
with the notifications sent, in order. -/
def check_and_notify (available_packs previous_stock : List (String × Nat)) :
    List (String × Nat) × List StockEvent :=
  if available_packs.isEmpty then (previous_stock, [])
  else (available_packs, available_packs.filterMap (stock_classification previous_stock))

instance {ε α : Type} [DecidableEq ε] [DecidableEq α] : DecidableEq (Except ε α) := by
  intro a b
  cases a <;> cases b
  case error.error e f => exact decidable_of_iff (e = f) (by simp)
  case ok.ok x y => exact decidable_of_iff (x = y) (by simp)
  all_goals exact isFalse (by simp)

/-- Serialising a hashable scalar and reading it back is the identity. -/
theorem toHashable_toJson (h : PyHashable) : Json.toHashable? h.toJson = some h := by
  cases h <;> rfl

/-- Reading back a saved seen set recovers it exactly. -/
theorem load_save (s : Finset PyHashable) (ts : String) :
    load_seen_listings (save_seen_listings s ts) = .ok s := by
  have hall : ((s.sort (· ≤ ·)).map PyHashable.toJson).all
      (fun e => e.toHashable?.isSome) = true := by
    rw [List.all_eq_true]
    intro e he
    rcases List.mem_map.mp he with ⟨h, -, rfl⟩
    simp [toHashable_toJson]
  have hfm : ((s.sort (· ≤ ·)).map PyHashable.toJson).filterMap Json.toHashable?
      = s.sort (· ≤ ·) := by
    rw [List.filterMap_map]
    have hc : (Json.toHashable? ∘ PyHashable.toJson) = some := by
      funext h
      simp [toHashable_toJson]
    rw [hc, List.filterMap_some]
  have hjg : ∀ X : Json,
      jsonGet [("seen_listings", X), ("last_updated", Json.str ts)] "seen_listings"
        = some X := fun _ => rfl
  simp only [save_seen_listings, load_seen_listings, hjg, Option.getD_some, pySet]
  rw [if_pos hall, hfm, Finset.sort_toFinset]

/-- C3: calculate_deal_percentage returns ((listed - market) / market) * 100
when the reference price is positive and 0.0 otherwise; in particular
-20.0 at (80, 100), 20.0 at (120, 100), and 0.0 whenever the reference
price is 0. -/
theorem calculate_deal_percentage_spec :
    (∀ listed_price market_price : ℚ,
       calculate_deal_percentage listed_price market_price =
         if 0 < market_price then ((listed_price - market_price) / market_price) * 100
         else 0) ∧
    calculate_deal_percentage 80 100 = -20 ∧
    calculate_deal_percentage 120 100 = 20 ∧
    (∀ listed_price : ℚ, calculate_deal_percentage listed_price 0 = 0) := by
  refine ⟨?_, by norm_num [calculate_deal_percentage], by norm_num [calculate_deal_percentage], ?_⟩
  · intro lp mp
    by_cases h : 0 < mp
    · rw [calculate_deal_percentage, if_neg (not_le.mpr h), if_pos h]
    · rw [calculate_deal_percentage, if_pos (not_lt.mp h), if_neg h]
  · intro lp
    norm_num [calculate_deal_percentage]

/-- C4: for every on-disk state whose load yields seen set s and every
identity key k, saving s with k inserted and loading again yields a set
containing k — the persistence round-trip through the JSON file. -/
theorem save_load_roundtrip (disk : StoredFile) (s : Finset PyHashable) (k ts : String)
    (h : load_seen_listings disk = .ok s) :
    ∃ s', load_seen_listings (save_seen_listings (insert (PyHashable.str k) s) ts) = .ok s'
      ∧ PyHashable.str k ∈ s' :=
  ⟨insert (PyHashable.str k) s, load_save _ _, Finset.mem_insert_self _ _⟩

theorem save_load_roundtrip_witness :
    load_seen_listings .absent = .ok ∅ ∧
    ∃ s', load_seen_listings
        (save_seen_listings (insert (PyHashable.str "k") (∅ : Finset PyHashable)) "ts") = .ok s'
      ∧ PyHashable.str "k" ∈ s' :=
  ⟨rfl, save_load_roundtrip .absent ∅ "k" "ts" rfl⟩

/-- C5 counterexample: the file content consisting of the JSON document []
is malformed persisted state (it is not the object save writes), yet
load_seen_listings does not return a set: data.get raises an uncaught
AttributeError, refuting the claim that arbitrary malformed content
yields a set without raising. -/
theorem load_seen_listings_raises_on_json_array :
    load_seen_listings (.parsed (.arr [])) =
      .error "AttributeError: object has no attribute get" := rfl

/-- C5 amended: on a missing file, or on content the JSON parser rejects
(equally an unreadable file), load_seen_listings returns the empty set
without raising, and a subsequent save_seen_listings succeeds and
overwrites that content with a well-formed document that loads back;
content that parses as JSON but is not an object with an iterable,
hashable-element seen_listings field instead raises an uncaught
exception. -/
theorem load_seen_listings_error_recovery (raw ts : String) (s : Finset PyHashable) :
    load_seen_listings .absent = .ok ∅ ∧
    load_seen_listings (.unparseable raw) = .ok ∅ ∧
    load_seen_listings (save_seen_listings s ts) = .ok s :=
  ⟨rfl, rfl, load_save s ts⟩

/-- C6: when the fetch collaborator returns its failure sentinel — none
for the marketplace fetch, the empty mapping for the store fetch — the
cycle produces zero notifications, the on-disk seen-set file is exactly
what it was, and the in-memory stock ledger is exactly what it was. -/
theorem fetch_failure_is_noop (now ts : String) (disk : StoredFile)
    (seen : Finset PyHashable) (previous_stock : List (String × Nat))
    (h : load_seen_listings disk = .ok seen) :
    check_marketplace none now ts disk = .ok (disk, []) ∧
    check_and_notify [] previous_stock = (previous_stock, []) := by
  constructor
  · simp [check_marketplace, h]
  · rfl

theorem fetch_failure_is_noop_witness :
    check_marketplace none "n" "t" .absent = .ok (.absent, []) ∧
    check_and_notify [] [("S", 2)] = ([("S", 2)], []) :=
  fetch_failure_is_noop "n" "t" .absent ∅ [("S", 2)] rfl

theorem pnl_foldl_fst (now : String) (seen : Finset PyHashable) :
    ∀ (listings : List Listing) (acc : Finset PyHashable × List Listing),
      seen ⊆ acc.1 →
      (listings.foldl (pnl_step now seen) acc).1
        = acc.1 ∪ (listings.map (keyOf now)).toFinset := by
  intro listings
  induction listings with
  | nil => intro acc _; simp
  | cons l ls ih =>
    intro acc hsub
    by_cases hm : keyOf now l ∈ seen
    · have hstep : pnl_step now seen acc l = acc := by
        rw [pnl_step, if_pos hm]
      rw [List.foldl_cons, hstep, ih acc hsub, List.map_cons, List.toFinset_cons,
        Finset.union_insert, Finset.insert_eq_self.mpr (Finset.mem_union_left _ (hsub hm))]
    · have hstep : pnl_step now seen acc l
          = (insert (keyOf now l) acc.1, acc.2 ++ [l]) := by
        rw [pnl_step, if_neg hm]
      rw [List.foldl_cons, hstep, ih _ (hsub.trans (Finset.subset_insert _ _)),
        List.map_cons, List.toFinset_cons, Finset.union_insert, Finset.insert_union]

theorem pnl_foldl_snd (now : String) (seen : Finset PyHashable) :
    ∀ (listings : List Listing) (acc : Finset PyHashable × List Listing),
      (listings.foldl (pnl_step now seen) acc).2
        = acc.2 ++ listings.filter (fun l => decide (keyOf now l ∉ seen)) := by
  intro listings
  induction listings with
  | nil => intro acc; simp
  | cons l ls ih =>
    intro acc
    by_cases hm : keyOf now l ∈ seen
    · have hstep : pnl_step now seen acc l = acc := by
        rw [pnl_step, if_pos hm]
      rw [List.foldl_cons, hstep, ih acc, List.filter_cons]
      simp [hm]
    · have hstep : pnl_step now seen acc l
          = (insert (keyOf now l) acc.1, acc.2 ++ [l]) := by
        rw [pnl_step, if_neg hm]
      rw [List.foldl_cons, hstep, ih, List.filter_cons]
      simp [hm]

theorem process_new_listings_fst (now : String) (listings : List Listing)
    (seen : Finset PyHashable) :
    (process_new_listings now listings seen).1
      = seen ∪ (listings.map (keyOf now)).toFinset := by
  rw [process_new_listings]
  exact pnl_foldl_fst now seen listings (seen, []) (subset_refl _)

theorem process_new_listings_snd (now : String) (listings : List Listing)
    (seen : Finset PyHashable) :
    (process_new_listings now listings seen).2
      = listings.filter (fun l => decide (keyOf now l ∉ seen)) := by
  rw [process_new_listings, pnl_foldl_snd, List.nil_append]

/-- C1: within one call of process_new_listings, the notification
dispatcher is invoked for a listing of the batch exactly when its
identity key (card_id and timestamp) is absent from the seen set supplied
to the call; in particular a listing whose key is already in the seen set
— as after an earlier cycle saw it — produces no notification. -/
theorem notify_iff_key_unseen (now : String) (listings : List Listing)
    (seen_listings : Finset PyHashable) (listing : Listing) :
    listing ∈ (process_new_listings now listings seen_listings).2
      ↔ listing ∈ listings
        ∧ PyHashable.str (listing_identity_key now listing) ∉ seen_listings := by
  rw [process_new_listings_snd, List.mem_filter]
  simp [keyOf]

/-- C7: the seen set grows monotonically — process_new_listings returns a
superset of the supplied seen set, and a completed check_marketplace
cycle leaves on disk a seen set that contains everything the loaded one
did; no identity key is ever removed. -/
theorem seen_set_monotone (now ts : String) (fetch_result : Option (List Listing))
    (disk : StoredFile) (seen : Finset PyHashable) (out : StoredFile × List Listing)
    (hload : load_seen_listings disk = .ok seen)
    (hcycle : check_marketplace fetch_result now ts disk = .ok out) :
    (∀ (listings : List Listing) (seen0 : Finset PyHashable),
        seen0 ⊆ (process_new_listings now listings seen0).1)
      ∧ ∃ seen', load_seen_listings out.1 = .ok seen' ∧ seen ⊆ seen' := by
  have hmono : ∀ (listings : List Listing) (seen0 : Finset PyHashable),
      seen0 ⊆ (process_new_listings now listings seen0).1 := by
    intro listings seen0
    rw [process_new_listings_fst]
    exact Finset.subset_union_left
  refine ⟨hmono, ?_⟩
  cases fetch_result with
  | none =>
    have h2 : check_marketplace none now ts disk = .ok (disk, []) := by
      rw [check_marketplace, hload]
    rw [h2] at hcycle
    cases hcycle
    exact ⟨seen, hload, subset_refl _⟩
  | some listings =>
    by_cases he : listings.isEmpty
    · have h2 : check_marketplace (some listings) now ts disk = .ok (disk, []) := by
        rw [check_marketplace, hload]
        dsimp only
        rw [if_pos he]
      rw [h2] at hcycle
      cases hcycle
      exact ⟨seen, hload, subset_refl _⟩
    · have h2 : check_marketplace (some listings) now ts disk
          = .ok (save_seen_listings (process_new_listings now listings seen).1 ts,
                 (process_new_listings now listings seen).2) := by
        rw [check_marketplace, hload]
        dsimp only
        rw [if_neg he]
      rw [h2] at hcycle
      cases hcycle
      exact ⟨(process_new_listings now listings seen).1, load_save _ _, hmono listings seen⟩

theorem seen_set_monotone_witness :
    (∀ (listings : List Listing) (seen0 : Finset PyHashable),
        seen0 ⊆ (process_new_listings "n" listings seen0).1)
      ∧ ∃ seen', load_seen_listings (StoredFile.absent, ([] : List Listing)).1 = .ok seen'
          ∧ (∅ : Finset PyHashable) ⊆ seen' :=
  seen_set_monotone "n" "t" none .absent ∅ (.absent, []) rfl rfl

/-- C10: the seen set returned by process_new_listings is the supplied
set united with the identity keys of every listing of the batch, so a new
listing is marked seen whether or not the dispatcher's filters suppress
its notification (second conjunct: even a listing the configured filters
reject has its key in the result), the result does not depend on the
filter thresholds (none occurs on the right-hand side, and
process_new_listings reads none), and the supplied set is not mutated
(the embedding is pure and every membership test runs against the
supplied set itself). -/
theorem new_keys_marked_seen_regardless_of_filters (now : String)
    (listings : List Listing) (seen_listings : Finset PyHashable) :
    (process_new_listings now listings seen_listings).1
        = seen_listings ∪ (listings.map (keyOf now)).toFinset
      ∧ ∀ (cfg : MonitorConfig) (listing : Listing), listing ∈ listings →
          send_discord_notification cfg listing = false →
          PyHashable.str (listing_identity_key now listing)
            ∈ (process_new_listings now listings seen_listings).1 := by
  refine ⟨process_new_listings_fst now listings seen_listings, ?_⟩
  intro cfg listing hmem _
  rw [process_new_listings_fst]
  exact Finset.mem_union_right _ (List.mem_toFinset.mpr (List.mem_map_of_mem _ hmem))

theorem new_keys_marked_seen_regardless_of_filters_witness :
    ((process_new_listings "t" [{ card_id := some "a", timestamp := some "1" }] ∅).1
        = ∅ ∪ ([({ card_id := some "a", timestamp := some "1" } : Listing)].map
                 (keyOf "t")).toFinset)
      ∧ PyHashable.str
            (listing_identity_key "t" { card_id := some "a", timestamp := some "1" })
          ∈ (process_new_listings "t" [{ card_id := some "a", timestamp := some "1" }] ∅).1 :=
  ⟨(new_keys_marked_seen_regardless_of_filters "t" _ ∅).1,
   (new_keys_marked_seen_regardless_of_filters "t"
       [{ card_id := some "a", timestamp := some "1" }] ∅).2
     ⟨"", 0, 0, 0⟩ _ (List.mem_singleton.mpr rfl) rfl⟩

/-- C8: with a configured webhook, each of the three listing filters
disables itself when its threshold is zero (the implications on the right
become vacuous) and, when enabled, independently suppresses the
notification: a post is attempted exactly when every enabled filter
passes — listed price at least the minimum, at most the maximum, and deal
percentage at most minus the deal threshold. -/
theorem listing_filters (cfg : MonitorConfig) (listing : Listing)
    (hurl : cfg.webhook_url ≠ "") :
    send_discord_notification cfg listing = true ↔
      ((0 < cfg.deal_threshold_percent →
          calculate_deal_percentage (listing.listed_price.getD 0)
              (listing.market_price.getD 0)
            ≤ -cfg.deal_threshold_percent)
        ∧ (0 < cfg.min_listing_price →
            cfg.min_listing_price ≤ listing.listed_price.getD 0)
        ∧ (0 < cfg.max_listing_price →
            listing.listed_price.getD 0 ≤ cfg.max_listing_price)) := by
  unfold send_discord_notification
  rw [if_neg hurl]
  dsimp only
  split_ifs with h1 h2 h3
  · simp only [Bool.false_eq_true, false_iff]
    intro hR
    exact absurd (hR.1 h1.1) (not_le.mpr h1.2)
  · simp only [Bool.false_eq_true, false_iff]
    intro hR
    exact absurd (hR.2.1 h2.1) (not_le.mpr h2.2)
  · simp only [Bool.false_eq_true, false_iff]
    intro hR
    exact absurd (hR.2.2 h3.1) (not_le.mpr h3.2)
  · simp only [true_iff]
    refine ⟨fun hT => ?_, fun hm => ?_, fun hM => ?_⟩
    · by_contra hc
      exact h1 ⟨hT, not_le.mp hc⟩
    · by_contra hc
      exact h2 ⟨hm, not_le.mp hc⟩
    · by_contra hc
      exact h3 ⟨hM, not_le.mp hc⟩

theorem listing_filters_witness :
    (("x" : String) ≠ "")
    ∧ (send_discord_notification ⟨"x", 0, 0, 0⟩ {} = true ↔
        ((0 < (0 : ℚ) →
            calculate_deal_percentage ((none : Option ℚ).getD 0) ((none : Option ℚ).getD 0)
              ≤ -(0 : ℚ))
          ∧ (0 < (0 : ℚ) → (0 : ℚ) ≤ (none : Option ℚ).getD 0)
          ∧ (0 < (0 : ℚ) → (none : Option ℚ).getD 0 ≤ (0 : ℚ)))) :=
  ⟨by decide, listing_filters ⟨"x", 0, 0, 0⟩ {} (by decide)⟩

/-- Shape of the i-th listing the normalizer produces. -/
theorem fetch_marketplace_data_get (card_ids prices names : List String) (now : String)
    (i : ℕ) (hi : i < (card_ids.take 5).length)
    (h : i < (fetch_marketplace_data card_ids prices names now).length) :
    (fetch_marketplace_data card_ids prices names now).get ⟨i, h⟩
      = { card_id := some ((card_ids.take 5).get ⟨i, hi⟩)
          card_name := some ((names.get? i).getD ("Card " ++ (card_ids.take 5).get ⟨i, hi⟩))
          set_name := some "Unknown Set"
          listed_price := some (match parseDigits ((prices.get? i).getD "0") with
            | some n => (n : ℚ) / 1000000
            | none => 0)
          market_price := some ((match parseDigits ((prices.get? i).getD "0") with
            | some n => (n : ℚ) / 1000000
            | none => 0) * (12 / 10 : ℚ))
          quantity := some 1
          rarity := some "Unknown"
          timestamp := some now } := by
  simp [fetch_marketplace_data, List.get_eq_getElem, List.getElem_map, List.getElem_enum]

/-- C9: the normalizer produces at most five listings per cycle and
substitutes defaults instead of throwing on missing fields — a listing
with no matching price capture gets listed price 0.0, one with no
matching name capture gets the default name built from its card id, and
quantity is always 1 (the embedding is a total function, so no input
raises). -/
theorem normalizer_bounds_and_defaults (card_ids prices names : List String)
    (now : String) :
    (fetch_marketplace_data card_ids prices names now).length ≤ 5
    ∧ ∀ (i : ℕ) (h : i < (fetch_marketplace_data card_ids prices names now).length),
        ((fetch_marketplace_data card_ids prices names now).get ⟨i, h⟩).quantity = some 1
        ∧ (prices.length ≤ i →
            ((fetch_marketplace_data card_ids prices names now).get ⟨i, h⟩).listed_price
              = some 0)
        ∧ (names.length ≤ i →
            ∃ cid, ((fetch_marketplace_data card_ids prices names now).get ⟨i, h⟩).card_id
                = some cid
              ∧ ((fetch_marketplace_data card_ids prices names now).get ⟨i, h⟩).card_name
                = some ("Card " ++ cid)) := by
  constructor
  · calc (fetch_marketplace_data card_ids prices names now).length
        = (card_ids.take 5).length := by
          rw [fetch_marketplace_data, List.length_map, List.enum_length]
      _ ≤ 5 := by
          rw [List.length_take]
          exact min_le_left _ _
  · intro i h
    have hi : i < (card_ids.take 5).length := by
      have := h
      rw [fetch_marketplace_data, List.length_map, List.enum_length] at this
      exact this
    have hget := fetch_marketplace_data_get card_ids prices names now i hi h
    refine ⟨?_, ?_, ?_⟩
    · rw [hget]
    · intro hp
      rw [hget]
      have hnone : prices.get? i = none := List.get?_eq_none.mpr hp
      have h0 : parseDigits "0" = some 0 := by decide
      simp only [hnone, Option.getD_none, h0]
      norm_num
    · intro hn
      refine ⟨(card_ids.take 5).get ⟨i, hi⟩, ?_, ?_⟩
      · rw [hget]
      · rw [hget]
        have hnone : names.get? i = none := List.get?_eq_none.mpr hn
        simp only [hnone, Option.getD_none]

theorem normalizer_bounds_and_defaults_witness :
    (fetch_marketplace_data ["a"] [] [] "t").length ≤ 5
    ∧ ((fetch_marketplace_data ["a"] [] [] "t").get
          ⟨0, by decide⟩).quantity = some 1
    ∧ ((fetch_marketplace_data ["a"] [] [] "t").get ⟨0, by decide⟩).listed_price = some 0
    ∧ ∃ cid, ((fetch_marketplace_data ["a"] [] [] "t").get ⟨0, by decide⟩).card_id = some cid
        ∧ ((fetch_marketplace_data ["a"] [] [] "t").get ⟨0, by decide⟩).card_name
          = some ("Card " ++ cid) := by
  obtain ⟨h5, hfields⟩ := normalizer_bounds_and_defaults ["a"] [] [] "t"
  obtain ⟨hq, hp, hn⟩ := hfields 0 (by decide)
  exact ⟨h5, hq, hp (by decide), hn (by decide)⟩

theorem bumpCount_keys (m : List (String × Nat)) (k : String) :
    (bumpCount m k).map Prod.fst
      = if k ∈ m.map Prod.fst then m.map Prod.fst else m.map Prod.fst ++ [k] := by
  induction m with
  | nil => simp [bumpCount]
  | cons p rest ih =>
    obtain ⟨k', v⟩ := p
    by_cases hk : k' = k
    · subst hk
      simp [bumpCount]
    · rw [List.map_cons]
      have hstep : bumpCount ((k', v) :: rest) k = (k', v) :: bumpCount rest k := by
        rw [bumpCount, if_neg hk]
      rw [hstep, List.map_cons, ih]
      by_cases hm : k ∈ rest.map Prod.fst
      · rw [if_pos hm, if_pos (List.mem_cons_of_mem _ hm)]
      · rw [if_neg hm, if_neg ?_, List.cons_append]
        intro hc
        rcases List.mem_cons.mp hc with hc | hc
        · exact hk hc.symm
        · exact hm hc

theorem bumpCount_nodup (m : List (String × Nat)) (k : String)
    (h : (m.map Prod.fst).Nodup) : ((bumpCount m k).map Prod.fst).Nodup := by
  rw [bumpCount_keys]
  by_cases hm : k ∈ m.map Prod.fst
  · rwa [if_pos hm]
  · rw [if_neg hm]
    exact List.Nodup.append h (List.nodup_singleton k) (by simpa using hm)

theorem bumpCount_pos (m : List (String × Nat)) (k : String)
    (h : ∀ p ∈ m, 0 < p.2) : ∀ p ∈ bumpCount m k, 0 < p.2 := by
  induction m with
  | nil =>
    intro p hp
    rw [bumpCount] at hp
    rcases List.mem_singleton.mp hp with rfl
    exact Nat.one_pos
  | cons q rest ih =>
    obtain ⟨k', v⟩ := q
    intro p hp
    by_cases hk : k' = k
    · subst hk
      rw [bumpCount, if_pos rfl] at hp
      rcases List.mem_cons.mp hp with rfl | hp
      · exact Nat.succ_pos v
      · exact h p (List.mem_cons_of_mem _ hp)
    · rw [bumpCount, if_neg hk] at hp
      rcases List.mem_cons.mp hp with rfl | hp
      · exact h (k', v) (List.mem_cons_self _ _)
      · exact ih (fun q hq => h q (List.mem_cons_of_mem _ hq)) p hp

theorem packs_keys_nodup (inventory_matches : List (String × String)) :
    ((fetch_available_packs_from_store inventory_matches).map Prod.fst).Nodup := by
  rw [fetch_available_packs_from_store]
  have : ∀ (ms : List (String × String)) (acc : List (String × Nat)),
      (acc.map Prod.fst).Nodup →
      ((ms.foldl (fun pack_counts p => bumpCount pack_counts (set_name_of p.2)) acc).map
        Prod.fst).Nodup := by
    intro ms
    induction ms with
    | nil => intro acc h; exact h
    | cons q rest ih =>
      intro acc h
      exact ih _ (bumpCount_nodup acc _ h)
  exact this inventory_matches [] (by simp)

theorem packs_counts_pos (inventory_matches : List (String × String)) :
    ∀ p ∈ fetch_available_packs_from_store inventory_matches, 0 < p.2 := by
  rw [fetch_available_packs_from_store]
  have : ∀ (ms : List (String × String)) (acc : List (String × Nat)),
      (∀ p ∈ acc, 0 < p.2) →
      ∀ p ∈ ms.foldl (fun pack_counts p => bumpCount pack_counts (set_name_of p.2)) acc,
        0 < p.2 := by
    intro ms
    induction ms with
    | nil => intro acc h; exact h
    | cons q rest ih =>
      intro acc h
      exact ih _ (bumpCount_pos acc _ h)
  exact this inventory_matches [] (by simp)

theorem lookupCount_of_mem (m : List (String × Nat)) (s : String) (c : Nat)
    (hnd : (m.map Prod.fst).Nodup) (hmem : (s, c) ∈ m) : lookupCount m s = c := by
  induction m with
  | nil => cases hmem
  | cons q rest ih =>
    obtain ⟨k', v⟩ := q
    rw [List.map_cons, List.nodup_cons] at hnd
    rcases List.mem_cons.mp hmem with heq | hmem'
    · cases heq
      rw [lookupCount, List.find?_cons_of_pos _ (by simp)]
      rfl
    · have hk : k' ≠ s := by
        intro hc
        subst hc
        exact hnd.1 (List.mem_map.mpr ⟨(k', c), hmem', rfl⟩)
      rw [lookupCount, List.find?_cons_of_neg _ (by simpa using hk)]
      exact ih hnd.2 hmem'

theorem stock_classification_setName (previous_stock : List (String × Nat))
    (p : String × Nat) (e : StockEvent)
    (h : stock_classification previous_stock p = some e) : e.setName = p.1 := by
  rw [stock_classification] at h
  split_ifs at h <;> cases h <;> rfl

theorem stock_events_absent (previous_stock : List (String × Nat)) (s : String) :
    ∀ (m : List (String × Nat)), s ∉ m.map Prod.fst →
      (m.filterMap (stock_classification previous_stock)).filter
        (fun e => e.setName == s) = [] := by
  intro m
  induction m with
  | nil => intro _; rfl
  | cons q rest ih =>
    intro hs
    rw [List.map_cons] at hs
    have hq : q.1 ≠ s := fun hc => hs (List.mem_cons.mpr (Or.inl hc.symm))
    have hrest : s ∉ rest.map Prod.fst := fun hc => hs (List.mem_cons_of_mem _ hc)
    rw [List.filterMap_cons]
    cases hcl : stock_classification previous_stock q with
    | none => exact ih hrest
    | some e =>
      rw [List.filter_cons_of_neg, ih hrest]
      simp [stock_classification_setName previous_stock q e hcl, hq]

theorem stock_events_count (previous_stock : List (String × Nat)) (s : String) (c : Nat) :
    ∀ (m : List (String × Nat)), (m.map Prod.fst).Nodup → (s, c) ∈ m →
      ((m.filterMap (stock_classification previous_stock)).filter
          (fun e => e.setName == s)).length
        = if (stock_classification previous_stock (s, c)).isSome then 1 else 0 := by
  intro m
  induction m with
  | nil => intro _ h; cases h
  | cons q rest ih =>
    intro hnd hmem
    rw [List.map_cons, List.nodup_cons] at hnd
    rcases List.mem_cons.mp hmem with heq | hmem'
    · cases heq
      have habs : s ∉ rest.map Prod.fst := hnd.1
      rw [List.filterMap_cons]
      cases hcl : stock_classification previous_stock (s, c) with
      | none => rw [stock_events_absent previous_stock s rest habs]; rfl
      | some e =>
        rw [List.filter_cons_of_pos, stock_events_absent previous_stock s rest habs]
        · rfl
        · simp [stock_classification_setName previous_stock _ e hcl]
    · have hq : q.1 ≠ s := by
        intro hc
        exact hnd.1 (hc ▸ List.mem_map_of_mem Prod.fst hmem')
      rw [List.filterMap_cons]
      cases hcl : stock_classification previous_stock q with
      | none => exact ih hnd.2 hmem'
      | some e =>
        rw [List.filter_cons_of_neg]
        · exact ih hnd.2 hmem'
        · simp [stock_classification_setName previous_stock q e hcl, hq]

/-- C2: for every set name s with count c in the tally of the current
poll, check_and_notify produces exactly one notification about s when the
previous ledger count p (0 when absent) is zero and c is positive
(first-seen) or when c exceeds p by more than five (restock), and none
otherwise; in every case — notification or not — the new ledger maps s to
c. -/
theorem stock_notify_rule (inventory_matches : List (String × String))
    (previous_stock : List (String × Nat)) (s : String) (c : Nat)
    (hmem : (s, c) ∈ fetch_available_packs_from_store inventory_matches) :
    (((check_and_notify (fetch_available_packs_from_store inventory_matches)
          previous_stock).2.filter (fun e => e.setName == s)).length
      = if (lookupCount previous_stock s = 0 ∧ 0 < c)
            ∨ lookupCount previous_stock s + 5 < c then 1 else 0)
    ∧ lookupCount (check_and_notify (fetch_available_packs_from_store inventory_matches)
          previous_stock).1 s = c := by
  have hpos : 0 < c := packs_counts_pos inventory_matches (s, c) hmem
  have hnd := packs_keys_nodup inventory_matches
  have hne : (fetch_available_packs_from_store inventory_matches).isEmpty = false := by
    cases hl : fetch_available_packs_from_store inventory_matches with
    | nil => rw [hl] at hmem; cases hmem
    | cons a t => rfl
  have hcn : check_and_notify (fetch_available_packs_from_store inventory_matches)
        previous_stock
      = (fetch_available_packs_from_store inventory_matches,
         (fetch_available_packs_from_store inventory_matches).filterMap
           (stock_classification previous_stock)) := by
    rw [check_and_notify, if_neg (by rw [hne]; exact Bool.false_ne_true)]
  constructor
  · rw [hcn, stock_events_count previous_stock s c _ hnd hmem]
    have hiff : (stock_classification previous_stock (s, c)).isSome
        ↔ ((lookupCount previous_stock s = 0 ∧ 0 < c)
            ∨ lookupCount previous_stock s + 5 < c) := by
      rw [stock_classification]
      split_ifs with h1 h2
      · simp [h1, hpos]
      · simp [h1, h2]
      · simp [h1, h2]
    exact if_congr hiff rfl rfl
  · rw [hcn]
    exact lookupCount_of_mem _ s c hnd hmem

theorem stock_notify_rule_witness :
    (((check_and_notify
          (fetch_available_packs_from_store [("1", "SetX Booster Pack")]) []).2.filter
        (fun e => e.setName == "SetX")).length
      = if (lookupCount [] "SetX" = 0 ∧ 0 < 1) ∨ lookupCount [] "SetX" + 5 < 1 then 1
        else 0)
    ∧ lookupCount (check_and_notify
          (fetch_available_packs_from_store [("1", "SetX Booster Pack")]) []).1 "SetX" = 1 :=
  stock_notify_rule [("1", "SetX Booster Pack")] [] "SetX" 1 (by decide)

end RipNotifier
